import Mathlib

/-!
Verification of the core of `gdscript-docs-maker`: the model builder
(`modules/gdscript_objects.py`) and the document renderer
(`modules/convert_to_markdown.py`).  Python strings are modelled as Lean
`String`s manipulated through their character lists; Python `dict` records
with possibly-absent keys are modelled as structures of `Option` fields, and
a `KeyError` raised on a missing key is modelled as `Except.error` carrying
the key's name.
-/

namespace Gdscript

/-! ## Python string primitives -/

/-- Characters stripped by Python's default `str.strip()`. -/
def pyIsSpace (c : Char) : Bool :=
  c = ' ' || c = '\t' || c = '\n' || c = '\r' || c = '\x0b' || c = '\x0c'

/-- Models Python `s.strip()` (strip whitespace from both ends). -/
def pyStrip (s : String) : String :=
  String.mk (((s.toList.dropWhile pyIsSpace).reverse.dropWhile pyIsSpace).reverse)

/-- Models Python `s.strip(chars)` for an explicit character set. -/
def pyStripSet (s : String) (chars : List Char) : String :=
  String.mk (((s.toList.dropWhile (chars.contains ·)).reverse.dropWhile
    (chars.contains ·)).reverse)

/-- Models Python `s.lower()` (ASCII case folding suffices here). -/
def pyLower (s : String) : String :=
  String.mk (s.toList.map Char.toLower)

/-- Models Python `s.startswith(p)`. -/
def pyStartsWith (s p : String) : Bool :=
  p.toList.isPrefixOf s.toList

/-- Occurrence test for a pattern anywhere in a character list. -/
def infixOfList (sub : List Char) : List Char → Bool
  | [] => sub.isEmpty
  | c :: rest => sub.isPrefixOf (c :: rest) || infixOfList sub rest

/-- Models Python `sub in s` (substring test). -/
def pyContains (s sub : String) : Bool :=
  infixOfList sub.toList s.toList

/-- Splits a character list on a single separator character, keeping empty
parts, as Python `str.split(sep)` does for a one-character separator. -/
def splitOnChar (sep : Char) : List Char → List (List Char)
  | [] => [[]]
  | c :: rest =>
    if c = sep then [] :: splitOnChar sep rest
    else
      match splitOnChar sep rest with
      | [] => [[c]]
      | h :: t => (c :: h) :: t

/-- Models Python `s.split(sep)` for a one-character separator. -/
def pySplit (s : String) (sep : Char) : List String :=
  (splitOnChar sep s.toList).map String.mk

/-- Joins character lists with a separator character. -/
def joinWithChar (sep : Char) : List (List Char) → List Char
  | [] => []
  | [x] => x
  | x :: y :: xs => x ++ sep :: joinWithChar sep (y :: xs)

/-- Models Python `sep.join(parts)` for a one-character separator. -/
def pyJoin (sep : Char) (parts : List String) : String :=
  String.mk (joinWithChar sep (parts.map String.toList))

/-- Drops everything up to and including the first colon. -/
def afterFirstColonAux : List Char → List Char
  | [] => []
  | c :: rest => if c = ':' then rest else afterFirstColonAux rest

/-- Models the Python expression `line[line.find(":") + 1 :]`: the text after
the first colon, or the whole line when there is no colon (`find` returns -1
and the slice starts at index 0). -/
def afterFirstColon (line : String) : String :=
  if line.toList.contains ':' then String.mk (afterFirstColonAux line.toList)
  else line

/-- One pass of Python `s.replace(old, new, 1)` over a character list:
rewrites the first occurrence of `pat` and leaves the rest untouched. -/
def replaceOneAux (pat new : List Char) : List Char → List Char
  | [] => if pat.isEmpty then new else []
  | c :: rest =>
    if pat.isPrefixOf (c :: rest) then new ++ (c :: rest).drop pat.length
    else c :: replaceOneAux pat new rest

/-- Models Python `s.replace(old, new, 1)` (first occurrence only). -/
def pyReplaceOne (s old new : String) : String :=
  String.mk (replaceOneAux old.toList new.toList s.toList)

/-- Models Python `sep.join(parts)` for a multi-character separator (used by
the markdown table helpers). -/
def joinSep (sep : String) : List String → String
  | [] => ""
  | [x] => x
  | x :: y :: xs => x ++ sep ++ joinSep sep (y :: xs)

/-! ## gdscript_objects.py — constants and the typed model -/

/-- The fixed list of engine callback names (gdscript_objects.py lines 9-29);
`"_gui_input"` appears twice in the source. -/
def BUILTIN_VIRTUAL_CALLBACKS : List String :=
  ["_process", "_physics_process", "_input", "_unhandled_input", "_gui_input",
   "_draw", "_get_configuration_warning", "_ready", "_enter_tree", "_exit_tree",
   "_get", "_get_property_list", "_notification", "_set", "_to_string",
   "_clips_input", "_get_minimum_size", "_gui_input", "_make_custom_tooltip"]

/-- The designated constructor name (gdscript_objects.py line 31). -/
def TYPE_CONSTRUCTOR : String := "_init"

structure Argument where
  name : String
  type : String
  deriving DecidableEq

structure Signal where
  signature : String
  name : String
  description : String
  arguments : List String
  deriving DecidableEq

inductive FunctionTypes where
  | METHOD
  | VIRTUAL
  | STATIC
  deriving DecidableEq

structure Function where
  signature : String
  kind : FunctionTypes
  name : String
  description : String
  return_type : String
  arguments : List Argument
  rpc_mode : Int
  tags : List String
  deriving DecidableEq

def Function.summarize (f : Function) : List String :=
  [f.return_type, f.signature]

structure Enumeration where
  signature : String
  name : String
  description : String
  values : List (String × Int)
  deriving DecidableEq

structure Member where
  signature : String
  name : String
  description : String
  type : String
  default_value : String
  is_exported : Bool
  setter : String
  getter : String
  tags : List String
  deriving DecidableEq

def Member.summarize (m : Member) : List String :=
  [m.type, m.name]

structure GDScriptClass where
  name : String
  «extends» : List String
  description : String
  path : String
  functions : List Function
  members : List Member
  signals : List Signal
  enums : List Enumeration
  tags : List String
  category : String
  deriving DecidableEq

def GDScriptClass.extends_as_string (c : GDScriptClass) : String :=
  joinSep " < " c.«extends»

/-! ## get_metadata (gdscript_objects.py lines 183-204) -/

/-- True of a line whose trimmed, lower-cased form starts with `tags:`
(the test on gdscript_objects.py line 195). -/
def isTagsLine (l : String) : Bool :=
  pyStartsWith (pyLower (pyStrip l)) "tags:"

/-- True of a line whose trimmed, lower-cased form starts with `category:`
(the test on gdscript_objects.py line 199). -/
def isCategoryLine (l : String) : Bool :=
  pyStartsWith (pyLower (pyStrip l)) "category:"

/-- A line contributing neither tags nor a category. -/
def isPlainLine (l : String) : Bool :=
  !isTagsLine l && !isCategoryLine l

/-- The tag list a `tags:` line contributes (gdscript_objects.py
lines 196-197): the text after the colon, split on commas, entries
trimmed. -/
def tagsOfLine (l : String) : List String :=
  (pySplit (afterFirstColon l) ',').map pyStrip

/-- The category a `category:` line contributes (gdscript_objects.py
line 200): the text after the colon, trimmed. -/
def categoryOfLine (l : String) : String :=
  pyStrip (afterFirstColon l)

/-- The loop of `get_metadata` (gdscript_objects.py lines 192-203):
accumulates the retained lines and overwrites the tags / category on each
matching line. -/
def get_metadata_go : List String → List String → List String → String →
    List String × List String × String
  | [], acc, tags, category => (acc, tags, category)
  | line :: rest, acc, tags, category =>
    if isTagsLine line then
      get_metadata_go rest acc (tagsOfLine line) category
    else if isCategoryLine line then
      get_metadata_go rest acc tags (categoryOfLine line)
    else
      get_metadata_go rest (acc ++ [line]) tags category

/-- `get_metadata` (gdscript_objects.py lines 183-204): splits the docstring
into lines, extracts tags and category, and rejoins the remaining lines. -/
def get_metadata (description : String) : String × List String × String :=
  let r := get_metadata_go (pySplit description '\n') [] [] ""
  (pyJoin '\n' r.1, r.2.1, r.2.2)

/-! ## Raw records

A raw JSON record is modelled as a structure of `Option` fields: `none`
means the key is absent from the dictionary.  Reading a key is `req`, which
raises the Python `KeyError` (modelled as `Except.error` carrying the key
name) when the key is absent. -/

/-- Models `data[key]`: a missing key raises `KeyError(key)`. -/
def req (v : Option α) (key : String) : Except String α :=
  match v with
  | some a => .ok a
  | none => .error key

structure RawArgument where
  name : Option String
  type : Option String
  deriving DecidableEq

structure RawFunction where
  name : Option String
  signature : Option String
  description : Option String
  arguments : Option (List RawArgument)
  return_type : Option String
  rpc_mode : Option Int
  deriving DecidableEq

structure RawMember where
  name : Option String
  signature : Option String
  description : Option String
  data_type : Option String
  default_value : Option String
  /-- Models the `export` key (named `exportFlag` because `export` is a Lean
  keyword). -/
  exportFlag : Option Bool
  setter : Option String
  getter : Option String
  deriving DecidableEq

structure RawSignal where
  signature : Option String
  name : Option String
  description : Option String
  arguments : Option (List String)
  deriving DecidableEq

structure RawConstant where
  data_type : Option String
  signature : Option String
  name : Option String
  description : Option String
  value : Option (List (String × Int))
  deriving DecidableEq

structure RawClassRecord where
  name : Option String
  extends_class : Option (List String)
  description : Option String
  path : Option String
  methods : Option (List RawFunction)
  static_functions : Option (List RawFunction)
  members : Option (List RawMember)
  signals : Option (List RawSignal)
  constants : Option (List RawConstant)
  deriving DecidableEq

/-! ## _get_arguments (gdscript_objects.py lines 252-259) -/

def _get_arguments : List RawArgument → Except String (List Argument)
  | [] => .ok []
  | entry :: rest => do
    let name ← req entry.name "name"
    let type ← req entry.type "type"
    let args ← _get_arguments rest
    pure (⟨name, type⟩ :: args)

/-! ## _get_functions (gdscript_objects.py lines 217-249) -/

/-- One iteration of the loop body of `_get_functions`
(gdscript_objects.py lines 219-248); `pure none` models `continue`.
Keys are read in the source's evaluation order: `name`; `arguments` only
inside the constructor test (Python's `and` short-circuits); `description`;
then, for a retained entry, `signature`, `return_type`, `arguments` and the
tolerant `rpc_mode` lookup. -/
def _get_functions_entry (is_static : Bool) (entry : RawFunction) :
    Except String (Option Function) := do
  let name ← req entry.name "name"
  if BUILTIN_VIRTUAL_CALLBACKS.contains name then
    pure none
  else do
    let ctorSkip ←
      if name == TYPE_CONSTRUCTOR then do
        let args ← req entry.arguments "arguments"
        pure args.isEmpty
      else
        pure false
    if ctorSkip then
      pure none
    else do
      let d ← req entry.description "description"
      let m := get_metadata d
      let is_virtual := m.2.1.contains "virtual" && !is_static
      let is_private := pyStartsWith name "_" && !is_virtual
      if is_private then
        pure none
      else do
        let kind :=
          if is_static then FunctionTypes.STATIC
          else if is_virtual then FunctionTypes.VIRTUAL
          else FunctionTypes.METHOD
        let signature ← req entry.signature "signature"
        let return_type ← req entry.return_type "return_type"
        let args ← req entry.arguments "arguments"
        let arguments ← _get_arguments args
        pure (some
          { signature := pyReplaceOne signature "-> null" "-> void"
            kind := kind
            name := name
            description := pyStripSet m.1 [' ', '\n']
            return_type := pyReplaceOne return_type "null" "void"
            arguments := arguments
            rpc_mode := entry.rpc_mode.getD 0
            tags := m.2.1 })

/-- The loop of `_get_functions` (gdscript_objects.py lines 217-249). -/
def _get_functions : List RawFunction → Bool → Except String (List Function)
  | [], _ => .ok []
  | entry :: rest, is_static => do
    let r ← _get_functions_entry is_static entry
    let fns ← _get_functions rest is_static
    pure (match r with | none => fns | some fn => fn :: fns)

/-! ## _get_members (gdscript_objects.py lines 262-281) -/

/-- One iteration of the loop body of `_get_members`; `pure none` models
the `continue` that skips private members. -/
def _get_members_entry (entry : RawMember) : Except String (Option Member) := do
  let name ← req entry.name "name"
  if pyStartsWith name "_" then
    pure none
  else do
    let d ← req entry.description "description"
    let m := get_metadata d
    let signature ← req entry.signature "signature"
    let data_type ← req entry.data_type "data_type"
    let default_value ← req entry.default_value "default_value"
    let exported ← req entry.exportFlag "export"
    let setter ← req entry.setter "setter"
    let getter ← req entry.getter "getter"
    pure (some
      { signature := signature
        name := name
        description := pyStripSet m.1 [' ', '\n']
        type := data_type
        default_value := default_value
        is_exported := exported
        setter := setter
        getter := getter
        tags := m.2.1 })

def _get_members : List RawMember → Except String (List Member)
  | [] => .ok []
  | entry :: rest => do
    let r ← _get_members_entry entry
    let ms ← _get_members rest
    pure (match r with | none => ms | some m => m :: ms)

/-! ## _get_signals (gdscript_objects.py lines 207-214) -/

def _get_signals_entry (entry : RawSignal) : Except String Signal := do
  let signature ← req entry.signature "signature"
  let name ← req entry.name "name"
  let description ← req entry.description "description"
  let arguments ← req entry.arguments "arguments"
  pure ⟨signature, name, description, arguments⟩

def _get_signals : List RawSignal → Except String (List Signal)
  | [] => .ok []
  | entry :: rest => do
    let s ← _get_signals_entry entry
    let ss ← _get_signals rest
    pure (s :: ss)

/-! ## Enumerations (gdscript_objects.py lines 89-93 and 139-143) -/

/-- One step of the comprehension
`[Enumeration.from_dict(entry) for entry in data["constants"]
  if entry["data_type"] == "Dictionary"]`:
the `data_type` of each entry is read first (the `if` clause); the other keys
are read only when the entry passes the filter. -/
def enumerations_entry (entry : RawConstant) :
    Except String (Option Enumeration) := do
  let dt ← req entry.data_type "data_type"
  if dt == "Dictionary" then do
    let signature ← req entry.signature "signature"
    let name ← req entry.name "name"
    let description ← req entry.description "description"
    let value ← req entry.value "value"
    pure (some ⟨signature, name, description, value⟩)
  else
    pure none

def enumerations : List RawConstant → Except String (List Enumeration)
  | [] => .ok []
  | entry :: rest => do
    let r ← enumerations_entry entry
    let es ← enumerations rest
    pure (match r with | none => es | some e => e :: es)

/-! ## GDScriptClass.from_dict (gdscript_objects.py lines 127-146) -/

/-- `GDScriptClass.from_dict`.  Keys are read in Python's evaluation order:
`description` (line 129), then the constructor arguments `name`,
`extends_class`, `path`, `methods`, `static_functions`, `members`,
`signals`, `constants`. -/
def from_dict (data : RawClassRecord) : Except String GDScriptClass := do
  let d ← req data.description "description"
  let m := get_metadata d
  let name ← req data.name "name"
  let extends_class ← req data.extends_class "extends_class"
  let path ← req data.path "path"
  let methodsRaw ← req data.methods "methods"
  let fns ← _get_functions methodsRaw false
  let staticsRaw ← req data.static_functions "static_functions"
  let statics ← _get_functions staticsRaw true
  let membersRaw ← req data.members "members"
  let members ← _get_members membersRaw
  let signalsRaw ← req data.signals "signals"
  let signals ← _get_signals signalsRaw
  let constantsRaw ← req data.constants "constants"
  let enums ← enumerations constantsRaw
  pure
    { name := name
      «extends» := extends_class
      description := pyStripSet m.1 [' ', '\n']
      path := path
      functions := fns ++ statics
      members := members
      signals := signals
      enums := enums
      tags := m.2.1
      category := m.2.2 }

/-! ## GDScriptClasses grouping (gdscript_objects.py lines 152-174) -/

/-- The attribute names of a `GDScriptClass` instance, i.e. the keys of
`self[0].__dict__` for a dataclass instance. -/
def classAttributeNames : List String :=
  ["name", "extends", "description", "path", "functions", "members",
   "signals", "enums", "tags", "category"]

/-- `GDScriptClasses._get_grouped_by` (gdscript_objects.py lines 160-169).
After the guard, line 166 runs `data = sorted(self, get_attribute)`, passing
the key function positionally; Python 3's `sorted` accepts `key` only as a
keyword argument, so this raises
`TypeError: sorted expected 1 argument, got 2`, modelled as `Except.error`. -/
def _get_grouped_by (classes : List GDScriptClass) (attr : String) :
    Except String (List (List GDScriptClass)) :=
  if classes.isEmpty || !classAttributeNames.contains attr then
    .ok []
  else
    .error "TypeError: sorted expected 1 argument, got 2"

/-- `GDScriptClasses.get_grouped_by_category` (gdscript_objects.py
lines 171-174). -/
def get_grouped_by_category (classes : List GDScriptClass) :
    Except String (List (List GDScriptClass)) :=
  _get_grouped_by classes "category"

/-! ## convert_to_markdown.py and its collaborators

The renderer itself is in the sources; its helper modules
(`make_markdown.py`, `hugo.py`, `command_line.py`) are not, so those helpers
are modelled from the spec. -/

/-- Modelled from the spec: the `OutputFormats` enum lives in
`command_line.py`, which is missing from the sources.  The spec names exactly
two recognized dialects (plain markdown and the Hugo front-matter dialect)
and discusses unrecognized dialect values, so the dialect is modelled as its
underlying string value; the renderer only compares it for equality. -/
def OutputFormats.MARDKOWN : String := "markdown"

/-- Modelled from the spec: the augmented (front-matter) dialect value. -/
def OutputFormats.HUGO : String := "hugo"

/-- The rendering options object (`argparse.Namespace`); only the fields the
renderer reads are modelled. -/
structure Arguments where
  format : String
  deriving DecidableEq

/-- Modelled from the spec: `make_heading` from `make_markdown.py` (missing
from the sources) renders a level-`level` markdown heading. -/
def make_heading (title : String) (level : Nat) : List String :=
  [String.mk (List.replicate level '#') ++ " " ++ title, ""]

/-- Modelled from the spec: `make_bold` from `make_markdown.py`. -/
def make_bold (text : String) : String :=
  "**" ++ text ++ "**"

/-- Modelled from the spec: `make_code_block` from `make_markdown.py`, a
literal fenced code block. -/
def make_code_block (code : String) : String :=
  "```gdscript\n" ++ (code ++ "\n```")

/-- Modelled from the spec: `hugo.highlight_code` from `hugo.py`, a
shortcode-wrapped syntax-highlighting block. -/
def hugo_highlight_code (code : String) : String :=
  "\x7b\x7b< highlight gdscript >\x7d\x7d\n" ++ (code ++ "\n\x7b\x7b< / highlight >\x7d\x7d")

/-- Modelled from the spec: `make_table_row` from `make_markdown.py`. -/
def make_table_row (cells : List String) : String :=
  "| " ++ (joinSep " | " cells ++ " |")

/-- Modelled from the spec: `make_table_header` from `make_markdown.py`, the
header row of a table followed by its separator row. -/
def make_table_header (cells : List String) : List String :=
  [make_table_row cells, make_table_row (cells.map (fun _ => "------"))]

/-- Modelled from the spec: `wrap_in_newlines` from `make_markdown.py`
surrounds lines with blank lines. -/
def wrap_in_newlines (lines : List String) : List String :=
  [""] ++ lines ++ [""]

/-- Modelled from the spec: `make_comment` from `make_markdown.py`. -/
def make_comment (text : String) : String :=
  "<!-- " ++ text ++ " -->"

/-- Modelled from the spec: `surround_with_html` from `make_markdown.py`. -/
def surround_with_html (text tag : String) : String :=
  "<" ++ tag ++ ">" ++ text ++ "</" ++ tag ++ ">"

/-- Modelled from the spec: `MarkdownSection(title, level, content).as_text()`
from `make_markdown.py` — a titled section that is entirely omitted when its
content list is empty. -/
def markdown_section (title : String) (level : Nat) (content : List String) :
    List String :=
  if content.isEmpty then [] else make_heading title level ++ content

/-- Modelled from the spec: `HugoFrontMatter.from_data(...).as_string_list()`
from `hugo.py` — the external collaborator receives name/category/description
derived fields and returns ordered text lines to prepend. -/
def hugo_front_matter_lines (gdscript : GDScriptClass) (_args : Arguments) :
    List String :=
  ["+++", "title: " ++ gdscript.name, "category: " ++ gdscript.category,
   "description: " ++ gdscript.description, "+++"]

/-- A finished document: its class name and its ordered text lines
(`MarkdownDocument` from `make_markdown.py`, modelled from the spec's output
boundary). -/
structure MarkdownDocument where
  title : String
  content : List String
  deriving DecidableEq

/-- `summarize_members` (convert_to_markdown.py lines 97-101): guarded by an
emptiness check. -/
def summarize_members (gdscript : GDScriptClass) : List String :=
  if gdscript.members.isEmpty then []
  else make_table_header ["Type", "Name"]
    ++ gdscript.members.map (fun member => make_table_row member.summarize)

/-- `summarize_methods` (convert_to_markdown.py lines 104-108): no emptiness
check. -/
def summarize_methods (gdscript : GDScriptClass) : List String :=
  make_table_header ["Type", "Name"]
    ++ gdscript.functions.map (fun function => make_table_row function.summarize)

/-- `write_signals` (convert_to_markdown.py lines 111-114). -/
def write_signals (signals : List Signal) : List String :=
  if signals.isEmpty then []
  else wrap_in_newlines (signals.map (fun s => "- " ++ s.signature))

/-- The nested `write_enum` (convert_to_markdown.py lines 118-126). -/
def write_enum (output_format : String) (enum : Enumeration) : List String :=
  make_heading enum.name 3
    ++ (if output_format == OutputFormats.HUGO then
          [hugo_highlight_code enum.signature, ""]
        else
          [make_code_block enum.signature, ""])
    ++ [enum.description]

/-- `write_enums` (convert_to_markdown.py lines 117-131). -/
def write_enums (enums : List Enumeration) (output_format : String) :
    List String :=
  (enums.map (write_enum output_format)).flatten

/-- The nested `write_member` (convert_to_markdown.py lines 135-151).  The
table-emission test on line 142 is the literal source condition
`if member.setter or member.setter:` — it reads the setter twice and never
consults the getter. -/
def write_member (output_format : String) (member : Member) : List String :=
  make_heading member.name 3
    ++ (if output_format == OutputFormats.HUGO then
          [hugo_highlight_code member.signature, ""]
        else
          [make_code_block member.signature, ""])
    ++ (if member.setter ≠ "" || member.setter ≠ "" then
          (if member.setter ≠ "" then [make_table_row ["Setter", member.setter]]
           else [])
          ++ (if member.getter ≠ "" then [make_table_row ["Getter", member.getter]]
              else [])
          ++ [""]
        else [])
    ++ [member.description]

/-- `write_members` (convert_to_markdown.py lines 134-156). -/
def write_members (members : List Member) (output_format : String) :
    List String :=
  (members.map (write_member output_format)).flatten

/-- The nested `write_function` (convert_to_markdown.py lines 162-178). -/
def write_function (output_format : String) (function : Function) :
    List String :=
  let heading := function.name
  let heading :=
    if function.kind = FunctionTypes.VIRTUAL then
      heading ++ " " ++ surround_with_html "(virtual)" "small"
    else heading
  let heading :=
    if function.kind = FunctionTypes.STATIC then
      heading ++ " " ++ surround_with_html "(static)" "small"
    else heading
  make_heading heading 3
    ++ (if output_format == OutputFormats.HUGO then
          [hugo_highlight_code function.signature, ""]
        else
          [make_code_block function.signature, ""])
    ++ (if function.description ≠ "" then ["", function.description] else [])

/-- `write_functions` (convert_to_markdown.py lines 159-183). -/
def write_functions (functions : List Function) (output_format : String) :
    List String :=
  (functions.map (write_function output_format)).flatten

/-- `as_markdown` (convert_to_markdown.py lines 45-94). -/
def as_markdown (gdscript : GDScriptClass) (arguments : Arguments) :
    MarkdownDocument :=
  let output_format := arguments.format
  let name :=
    if gdscript.tags.contains "abstract" then
      gdscript.name ++ " " ++ surround_with_html "(abstract)" "small"
    else gdscript.name
  let content : List String :=
    (if output_format == OutputFormats.HUGO then
       hugo_front_matter_lines gdscript arguments
     else [])
    ++ [make_comment ("Auto-generated from JSON by GDScript docs maker. "
          ++ "Do not edit this document directly.") ++ "\n"]
    ++ (if output_format == OutputFormats.MARDKOWN then make_heading name 1
        else [])
    ++ [make_bold "Extends:" ++ " " ++ gdscript.extends_as_string]
    ++ markdown_section "Description" 2 [gdscript.description]
    ++ markdown_section "Properties" 2 (summarize_members gdscript)
    ++ markdown_section "Methods" 2 (summarize_methods gdscript)
    ++ markdown_section "Signals" 2 (write_signals gdscript.signals)
    ++ markdown_section "Enumerations" 2 (write_enums gdscript.enums output_format)
    ++ markdown_section "Property Descriptions" 2
        (write_members gdscript.members output_format)
    ++ markdown_section "Method Descriptions" 2
        (write_functions gdscript.functions output_format)
  ⟨gdscript.name, content⟩

/-- `convert_to_markdown` (convert_to_markdown.py lines 32-42). -/
def convert_to_markdown (classes : List GDScriptClass) (arguments : Arguments) :
    List MarkdownDocument :=
  classes.map (fun entry => as_markdown entry arguments)

/-! ## Fully-populated records and key erasures

To quantify over well-formed inputs, and over inputs missing exactly one
key, we use "total" counterparts of the raw records (every key present) and
erasure maps that drop a single chosen key. -/

structure ArgData where
  name : String
  type : String
  deriving DecidableEq

def ArgData.toRaw (a : ArgData) : RawArgument :=
  ⟨some a.name, some a.type⟩

structure FnEntryData where
  name : String
  signature : String
  description : String
  arguments : List ArgData
  return_type : String
  /-- `rpc_mode` is the one tolerated key: `none` models its absence. -/
  rpc_mode : Option Int
  deriving DecidableEq

def FnEntryData.toRaw (e : FnEntryData) : RawFunction :=
  ⟨some e.name, some e.signature, some e.description,
   some (e.arguments.map ArgData.toRaw), some e.return_type, e.rpc_mode⟩

structure MemberData where
  name : String
  signature : String
  description : String
  data_type : String
  default_value : String
  exportFlag : Bool
  setter : String
  getter : String
  deriving DecidableEq

def MemberData.toRaw (e : MemberData) : RawMember :=
  ⟨some e.name, some e.signature, some e.description, some e.data_type,
   some e.default_value, some e.exportFlag, some e.setter, some e.getter⟩

structure SignalData where
  signature : String
  name : String
  description : String
  arguments : List String
  deriving DecidableEq

def SignalData.toRaw (e : SignalData) : RawSignal :=
  ⟨some e.signature, some e.name, some e.description, some e.arguments⟩

structure ConstantData where
  data_type : String
  signature : String
  name : String
  description : String
  value : List (String × Int)
  deriving DecidableEq

def ConstantData.toRaw (e : ConstantData) : RawConstant :=
  ⟨some e.data_type, some e.signature, some e.name, some e.description,
   some e.value⟩

structure ClassData where
  name : String
  extends_class : List String
  description : String
  path : String
  methods : List FnEntryData
  static_functions : List FnEntryData
  members : List MemberData
  signals : List SignalData
  constants : List ConstantData
  deriving DecidableEq

def ClassData.toRaw (T : ClassData) : RawClassRecord :=
  ⟨some T.name, some T.extends_class, some T.description, some T.path,
   some (T.methods.map FnEntryData.toRaw),
   some (T.static_functions.map FnEntryData.toRaw),
   some (T.members.map MemberData.toRaw),
   some (T.signals.map SignalData.toRaw),
   some (T.constants.map ConstantData.toRaw)⟩

/-! ### Retention and construction, stated from the claims' words -/

/-- A method entry is classified virtual when the literal tag `virtual`
occurs in the tags extracted from its description and the entry is not from
the static-functions list. -/
def isVirtualEntry (is_static : Bool) (e : FnEntryData) : Bool :=
  (get_metadata e.description).2.1.contains "virtual" && !is_static

/-- The claims' retention rule: an entry is kept unless its name is in the
fixed built-in callback list, or it is the zero-argument constructor, or its
name starts with an underscore and it is not classified virtual. -/
def keepEntry (is_static : Bool) (e : FnEntryData) : Bool :=
  !BUILTIN_VIRTUAL_CALLBACKS.contains e.name
  && !(e.name == TYPE_CONSTRUCTOR && e.arguments.isEmpty)
  && !(pyStartsWith e.name "_" && !isVirtualEntry is_static e)

/-- The `Function` built from a retained entry. -/
def buildEntry (is_static : Bool) (e : FnEntryData) : Function :=
  { signature := pyReplaceOne e.signature "-> null" "-> void"
    kind :=
      if is_static then FunctionTypes.STATIC
      else if isVirtualEntry is_static e then FunctionTypes.VIRTUAL
      else FunctionTypes.METHOD
    name := e.name
    description := pyStripSet (get_metadata e.description).1 [' ', '\n']
    return_type := pyReplaceOne e.return_type "null" "void"
    arguments := e.arguments.map (fun a => ⟨a.name, a.type⟩)
    rpc_mode := e.rpc_mode.getD 0
    tags := (get_metadata e.description).2.1 }

/-- The `Member` built from a retained (non-underscore) member entry. -/
def buildMember (e : MemberData) : Member :=
  { signature := e.signature
    name := e.name
    description := pyStripSet (get_metadata e.description).1 [' ', '\n']
    type := e.data_type
    default_value := e.default_value
    is_exported := e.exportFlag
    setter := e.setter
    getter := e.getter
    tags := (get_metadata e.description).2.1 }

def buildSignal (e : SignalData) : Signal :=
  ⟨e.signature, e.name, e.description, e.arguments⟩

def buildEnum (e : ConstantData) : Enumeration :=
  ⟨e.signature, e.name, e.description, e.value⟩

/-! ### Erasing a single key -/

inductive TopKey where
  | extends_class
  | description
  | path
  | methods
  | static_functions
  | members
  | signals
  | constants
  deriving DecidableEq

def TopKey.keyName : TopKey → String
  | .extends_class => "extends_class"
  | .description => "description"
  | .path => "path"
  | .methods => "methods"
  | .static_functions => "static_functions"
  | .members => "members"
  | .signals => "signals"
  | .constants => "constants"

/-- The raw record of `T` with the one chosen top-level key absent
(`name` stays present, as the claim requires). -/
def eraseTop (T : ClassData) (k : TopKey) : RawClassRecord :=
  let r := T.toRaw
  match k with
  | .extends_class => { r with extends_class := none }
  | .description => { r with description := none }
  | .path => { r with path := none }
  | .methods => { r with methods := none }
  | .static_functions => { r with static_functions := none }
  | .members => { r with members := none }
  | .signals => { r with signals := none }
  | .constants => { r with constants := none }

inductive FnKey where
  | name
  | signature
  | description
  | arguments
  | return_type
  deriving DecidableEq

def FnKey.keyName : FnKey → String
  | .name => "name"
  | .signature => "signature"
  | .description => "description"
  | .arguments => "arguments"
  | .return_type => "return_type"

/-- The raw method entry of `e` with the one chosen key absent. -/
def eraseFn (e : FnEntryData) (k : FnKey) : RawFunction :=
  let r := e.toRaw
  match k with
  | .name => { r with name := none }
  | .signature => { r with signature := none }
  | .description => { r with description := none }
  | .arguments => { r with arguments := none }
  | .return_type => { r with return_type := none }

/-- Whether `_get_functions` actually reads key `k` of entry `e`: `name` is
always read; `description` once the name-based skips are passed;
`arguments` inside the constructor test or for a retained entry;
`signature` and `return_type` only for a retained entry. -/
def fnKeyRead (is_static : Bool) (e : FnEntryData) : FnKey → Bool
  | .name => true
  | .description =>
    !BUILTIN_VIRTUAL_CALLBACKS.contains e.name
      && !(e.name == TYPE_CONSTRUCTOR && e.arguments.isEmpty)
  | .arguments =>
    !BUILTIN_VIRTUAL_CALLBACKS.contains e.name
      && (e.name == TYPE_CONSTRUCTOR || keepEntry is_static e)
  | .signature => keepEntry is_static e
  | .return_type => keepEntry is_static e

inductive MemKey where
  | name
  | signature
  | description
  | data_type
  | default_value
  | exportKey
  | setter
  | getter
  deriving DecidableEq

def MemKey.keyName : MemKey → String
  | .name => "name"
  | .signature => "signature"
  | .description => "description"
  | .data_type => "data_type"
  | .default_value => "default_value"
  | .exportKey => "export"
  | .setter => "setter"
  | .getter => "getter"

def eraseMem (e : MemberData) (k : MemKey) : RawMember :=
  let r := e.toRaw
  match k with
  | .name => { r with name := none }
  | .signature => { r with signature := none }
  | .description => { r with description := none }
  | .data_type => { r with data_type := none }
  | .default_value => { r with default_value := none }
  | .exportKey => { r with exportFlag := none }
  | .setter => { r with setter := none }
  | .getter => { r with getter := none }

/-- Whether `_get_members` reads key `k` of entry `e`: `name` always, the
rest only when the member is not skipped as private. -/
def memKeyRead (e : MemberData) : MemKey → Bool
  | .name => true
  | _ => !pyStartsWith e.name "_"

inductive SigKey where
  | signature
  | name
  | description
  | arguments
  deriving DecidableEq

def SigKey.keyName : SigKey → String
  | .signature => "signature"
  | .name => "name"
  | .description => "description"
  | .arguments => "arguments"

def eraseSig (e : SignalData) (k : SigKey) : RawSignal :=
  let r := e.toRaw
  match k with
  | .signature => { r with signature := none }
  | .name => { r with name := none }
  | .description => { r with description := none }
  | .arguments => { r with arguments := none }

inductive ConstKey where
  | data_type
  | signature
  | name
  | description
  | value
  deriving DecidableEq

def ConstKey.keyName : ConstKey → String
  | .data_type => "data_type"
  | .signature => "signature"
  | .name => "name"
  | .description => "description"
  | .value => "value"

def eraseConst (e : ConstantData) (k : ConstKey) : RawConstant :=
  let r := e.toRaw
  match k with
  | .data_type => { r with data_type := none }
  | .signature => { r with signature := none }
  | .name => { r with name := none }
  | .description => { r with description := none }
  | .value => { r with value := none }

/-- Whether the constants comprehension reads key `k` of entry `e`:
`data_type` always (the filter clause), the rest only for entries whose
data type is `"Dictionary"`. -/
def constKeyRead (e : ConstantData) : ConstKey → Bool
  | .data_type => true
  | _ => e.data_type == "Dictionary"

/-- A record equal to `T.toRaw` except that the given raw method entries
replace the `methods` list. -/
def withMethods (T : ClassData) (l : List RawFunction) : RawClassRecord :=
  { T.toRaw with methods := some l }

/-- A record equal to `T.toRaw` except for the `static_functions` list. -/
def withStatics (T : ClassData) (l : List RawFunction) : RawClassRecord :=
  { T.toRaw with static_functions := some l }

/-- A record equal to `T.toRaw` except for the `members` list. -/
def withMembers (T : ClassData) (l : List RawMember) : RawClassRecord :=
  { T.toRaw with members := some l }

/-- A record equal to `T.toRaw` except for the `signals` list. -/
def withSignals (T : ClassData) (l : List RawSignal) : RawClassRecord :=
  { T.toRaw with signals := some l }

/-- A record equal to `T.toRaw` except for the `constants` list. -/
def withConstants (T : ClassData) (l : List RawConstant) : RawClassRecord :=
  { T.toRaw with constants := some l }

/-- The class a fully-populated record builds. -/
def buildClass (T : ClassData) : GDScriptClass :=
  { name := T.name
    «extends» := T.extends_class
    description := pyStripSet (get_metadata T.description).1 [' ', '\n']
    path := T.path
    functions := (T.methods.filter (keepEntry false)).map (buildEntry false)
      ++ (T.static_functions.filter (keepEntry true)).map (buildEntry true)
    members := (T.members.filter (fun m => !pyStartsWith m.name "_")).map buildMember
    signals := T.signals.map buildSignal
    enums := (T.constants.filter (fun c => c.data_type == "Dictionary")).map buildEnum
    tags := (get_metadata T.description).2.1
    category := (get_metadata T.description).2.2 }

/-- `result` is `s` with at most one contiguous occurrence of `pat` replaced
by `new`: either `pat` does not occur and `s` is unchanged, or exactly one
occurrence was rewritten and everything else is kept verbatim. -/
def ReplacedAtMostOnce (s pat new result : String) : Prop :=
  (pyContains s pat = false ∧ result = s)
  ∨ ∃ a b : List Char, s.toList = a ++ pat.toList ++ b
      ∧ result.toList = a ++ new.toList ++ b

/-- Whether a computation succeeded (no exception escaped). -/
def exceptIsOk : Except ε α → Bool
  | .ok _ => true
  | .error _ => false

/-- The corrected emission rule for the accessor table of one member: the
table is emitted exactly when the setter is non-empty (the source reads the
setter twice and never consults the getter); when emitted it holds a Setter
row and, if the getter is also non-empty, a Getter row, followed by a blank
line. -/
def write_member_spec (output_format : String) (member : Member) :
    List String :=
  make_heading member.name 3
    ++ (if output_format == OutputFormats.HUGO then
          [hugo_highlight_code member.signature, ""]
        else
          [make_code_block member.signature, ""])
    ++ (if member.setter ≠ "" then
          (if member.getter ≠ "" then
            [make_table_row ["Setter", member.setter],
             make_table_row ["Getter", member.getter], ""]
           else
            [make_table_row ["Setter", member.setter], ""])
        else [])
    ++ [member.description]

/-- The document produced for an unrecognized dialect value, per the
corrected claim: no front matter, no top-level heading, and plain fenced
code blocks — identical for every unrecognized dialect value. -/
def unrecognized_dialect_document (gdscript : GDScriptClass) :
    MarkdownDocument :=
  ⟨gdscript.name,
    [make_comment ("Auto-generated from JSON by GDScript docs maker. "
       ++ "Do not edit this document directly.") ++ "\n"]
    ++ [make_bold "Extends:" ++ " " ++ gdscript.extends_as_string]
    ++ markdown_section "Description" 2 [gdscript.description]
    ++ markdown_section "Properties" 2 (summarize_members gdscript)
    ++ markdown_section "Methods" 2 (summarize_methods gdscript)
    ++ markdown_section "Signals" 2 (write_signals gdscript.signals)
    ++ markdown_section "Enumerations" 2
        (write_enums gdscript.enums "unrecognized")
    ++ markdown_section "Property Descriptions" 2
        (write_members gdscript.members "unrecognized")
    ++ markdown_section "Method Descriptions" 2
        (write_functions gdscript.functions "unrecognized")⟩

/-- A raw record whose nested method entry is the engine callback
`_process` and lacks every per-method key except `name`. -/
def skippedEntryRecord : RawClassRecord :=
  { name := some "Foo", extends_class := some ["Node"],
    description := some "Does things.", path := some "foo.gd",
    methods := some [⟨some "_process", none, none, none, none, none⟩],
    static_functions := some [], members := some [], signals := some [],
    constants := some [] }

/-- A fully-populated class record used to instantiate the theorems. -/
def sampleClassData : ClassData :=
  ⟨"Foo", ["Node"], "Does things.", "foo.gd", [], [], [], [], []⟩

/-- A retained method entry used to instantiate the theorems. -/
def sampleFnEntry : FnEntryData :=
  ⟨"bar", "bar() -> null", "", [], "null", some 0⟩

/-- A raw method entry for the skipped callback `_process` that lacks every
per-method key but `name` and `rpc_mode`. -/
def skippedRawFn : RawFunction :=
  { name := some "_process", signature := none, description := none,
    arguments := none, return_type := none, rpc_mode := some 0 }

/-- A retained method entry whose `rpc_mode` key is absent. -/
def rpcSampleEntry : FnEntryData :=
  ⟨"baz", "baz()", "", [], "void", none⟩

/-- A concrete class with no members, signals, enums or functions. -/
def sampleClass : GDScriptClass :=
  ⟨"Foo", ["Node"], "", "foo.gd", [], [], [], [], [], ""⟩

/-- A member with an empty setter and a non-empty getter. -/
def getterOnlyMember : Member :=
  ⟨"var x", "x", "", "int", "0", false, "", "get_x", []⟩

/-! ## Lemmas: evaluation on fully-populated records -/

lemma req_some (a : α) (k : String) : req (some a) k = .ok a := rfl

lemma req_none (k : String) : req (none : Option α) k = .error k := rfl

lemma ok_bind (a : α) (f : α → Except ε β) :
    (Except.ok a >>= f) = f a := rfl

lemma error_bind (e : ε) (f : α → Except ε β) :
    (Except.error e >>= f : Except ε β) = Except.error e := rfl

lemma pure_eq_ok (a : α) : (pure a : Except ε α) = .ok a := rfl

lemma getArguments_toRaw (l : List ArgData) :
    _get_arguments (l.map ArgData.toRaw)
      = .ok (l.map fun a => (⟨a.name, a.type⟩ : Argument)) := by
  induction l with
  | nil => rfl
  | cons a t ih =>
    simp only [List.map_cons, _get_arguments, ArgData.toRaw, req_some, ok_bind, ih,
      pure_eq_ok]

lemma getFunctionsEntry_toRaw (s : Bool) (e : FnEntryData) :
    _get_functions_entry s e.toRaw
      = .ok (if keepEntry s e then some (buildEntry s e) else none) := by
  unfold _get_functions_entry FnEntryData.toRaw keepEntry buildEntry isVirtualEntry
  simp only [req_some, ok_bind]
  cases hb : BUILTIN_VIRTUAL_CALLBACKS.contains e.name with
  | true => simp [hb, pure_eq_ok]
  | false =>
    simp only [hb, Bool.false_eq_true, if_neg, Bool.not_false, Bool.true_and,
      ite_false, Bool.false_and]
    cases hc : (e.name == TYPE_CONSTRUCTOR) with
    | true =>
      simp only [hc, if_true, req_some, ok_bind, ite_true]
      cases ha : e.arguments.isEmpty with
      | true =>
        simp [ha, List.isEmpty_iff.mp ha, pure_eq_ok, ok_bind, _get_arguments]
      | false =>
        have : (e.arguments.map ArgData.toRaw).isEmpty = false := by
          cases harg : e.arguments with
          | nil => rw [harg] at ha; simp [List.isEmpty] at ha
          | cons x t => rfl
        simp only [this, ok_bind, if_false, Bool.and_true, Bool.and_false,
          Bool.not_false, Bool.true_and, req_some, getArguments_toRaw,
          Bool.false_eq_true, ite_false]
        cases hp : (pyStartsWith e.name "_"
            && !((get_metadata e.description).2.1.contains "virtual" && !s)) with
        | true => simp [hp, pure_eq_ok, ok_bind]
        | false => simp [hp, pure_eq_ok, ok_bind]
    | false =>
      simp only [hc, Bool.false_eq_true, ite_false, ok_bind, req_some,
        Bool.false_and, Bool.not_false, Bool.true_and]
      cases hp : (pyStartsWith e.name "_"
          && !((get_metadata e.description).2.1.contains "virtual" && !s)) with
      | true => simp [hp, pure_eq_ok, ok_bind]
      | false => simp [hp, getArguments_toRaw, pure_eq_ok, ok_bind]

lemma isEmpty_map (f : α → β) (l : List α) : (l.map f).isEmpty = l.isEmpty := by
  cases l <;> rfl

lemma getFunctions_toRaw (l : List FnEntryData) (s : Bool) :
    _get_functions (l.map FnEntryData.toRaw) s
      = .ok ((l.filter (keepEntry s)).map (buildEntry s)) := by
  induction l with
  | nil => rfl
  | cons e t ih =>
    cases h : keepEntry s e with
    | true =>
      simp [_get_functions, getFunctionsEntry_toRaw, h, ok_bind, ih, pure_eq_ok]
    | false =>
      simp [_get_functions, getFunctionsEntry_toRaw, h, ok_bind, ih, pure_eq_ok]

lemma getMembersEntry_toRaw (e : MemberData) :
    _get_members_entry e.toRaw
      = .ok (if pyStartsWith e.name "_" then none else some (buildMember e)) := by
  unfold _get_members_entry MemberData.toRaw buildMember
  cases h : pyStartsWith e.name "_" with
  | true => simp [h, req_some, ok_bind, pure_eq_ok]
  | false => simp [h, req_some, ok_bind, pure_eq_ok]

lemma getMembers_toRaw (l : List MemberData) :
    _get_members (l.map MemberData.toRaw)
      = .ok ((l.filter (fun m => !pyStartsWith m.name "_")).map buildMember) := by
  induction l with
  | nil => rfl
  | cons e t ih =>
    cases h : pyStartsWith e.name "_" with
    | true => simp [_get_members, getMembersEntry_toRaw, h, ok_bind, ih, pure_eq_ok]
    | false => simp [_get_members, getMembersEntry_toRaw, h, ok_bind, ih, pure_eq_ok]

lemma getSignals_toRaw (l : List SignalData) :
    _get_signals (l.map SignalData.toRaw) = .ok (l.map buildSignal) := by
  induction l with
  | nil => rfl
  | cons e t ih =>
    simp [_get_signals, _get_signals_entry, SignalData.toRaw, buildSignal,
      req_some, ok_bind, ih, pure_eq_ok]

lemma enumerationsEntry_toRaw (e : ConstantData) :
    enumerations_entry e.toRaw
      = .ok (if e.data_type == "Dictionary" then some (buildEnum e) else none) := by
  unfold enumerations_entry ConstantData.toRaw buildEnum
  cases h : (e.data_type == "Dictionary") with
  | true => simp [h, beq_iff_eq.mp h, req_some, ok_bind, pure_eq_ok]
  | false =>
    have hne : ¬e.data_type = "Dictionary" := by
      intro hEq; rw [hEq] at h; simp at h
    simp [h, hne, req_some, ok_bind, pure_eq_ok]

lemma enumerations_toRaw (l : List ConstantData) :
    enumerations (l.map ConstantData.toRaw)
      = .ok ((l.filter (fun c => c.data_type == "Dictionary")).map buildEnum) := by
  induction l with
  | nil => rfl
  | cons e t ih =>
    cases h : (e.data_type == "Dictionary") with
    | true => simp [enumerations, enumerationsEntry_toRaw, h, ok_bind, ih, pure_eq_ok]
    | false => simp [enumerations, enumerationsEntry_toRaw, h, ok_bind, ih, pure_eq_ok]

lemma from_dict_toRaw (T : ClassData) :
    from_dict T.toRaw = .ok (buildClass T) := by
  simp [from_dict, ClassData.toRaw, buildClass, req_some, ok_bind,
    getFunctions_toRaw, getMembers_toRaw, getSignals_toRaw, enumerations_toRaw,
    pure_eq_ok]

/-! ## Lemmas: a single absent key -/

lemma keepEntry_parts {s : Bool} {e : FnEntryData} (h : keepEntry s e = true) :
    BUILTIN_VIRTUAL_CALLBACKS.contains e.name = false
    ∧ (e.name == TYPE_CONSTRUCTOR && e.arguments.isEmpty) = false
    ∧ (pyStartsWith e.name "_" && !isVirtualEntry s e) = false := by
  simp only [keepEntry, Bool.and_eq_true, Bool.not_eq_true'] at h
  exact ⟨h.1.1, h.1.2, h.2⟩

lemma getFunctionsEntry_erase (s : Bool) (e : FnEntryData) (k : FnKey)
    (h : fnKeyRead s e k = true) :
    _get_functions_entry s (eraseFn e k) = .error k.keyName := by
  cases k with
  | name =>
    simp [_get_functions_entry, eraseFn, FnEntryData.toRaw, req_none,
      error_bind, FnKey.keyName]
  | description =>
    simp only [fnKeyRead, Bool.and_eq_true, Bool.not_eq_true'] at h
    obtain ⟨hb, hce⟩ := h
    unfold _get_functions_entry eraseFn FnEntryData.toRaw
    simp only [req_some, ok_bind, hb, Bool.false_eq_true, ite_false]
    cases hc : (e.name == TYPE_CONSTRUCTOR) with
    | true =>
      rw [hc, Bool.true_and] at hce
      simp [req_some, ok_bind, isEmpty_map, hce, req_none, error_bind,
        FnKey.keyName]
    | false =>
      simp [hc, pure_eq_ok, ok_bind, req_none, error_bind, FnKey.keyName]
  | arguments =>
    simp only [fnKeyRead, Bool.and_eq_true, Bool.or_eq_true, Bool.not_eq_true'] at h
    obtain ⟨hb, hck⟩ := h
    unfold _get_functions_entry eraseFn FnEntryData.toRaw
    simp only [req_some, ok_bind, hb, Bool.false_eq_true, ite_false]
    cases hc : (e.name == TYPE_CONSTRUCTOR) with
    | true =>
      simp [hc, req_none, error_bind, FnKey.keyName]
    | false =>
      have hk : keepEntry s e = true := by
        rcases hck with hck | hck
        · rw [hc] at hck; exact absurd hck (by simp)
        · exact hck
      obtain ⟨_, _, hp⟩ := keepEntry_parts hk
      simp [hc, pure_eq_ok, ok_bind, req_some, isVirtualEntry] at hp ⊢
      simp [hp, req_none, error_bind, FnKey.keyName]
      exact hp
  | signature =>
    obtain ⟨hb, hce, hp⟩ := keepEntry_parts h
    unfold _get_functions_entry eraseFn FnEntryData.toRaw
    simp only [req_some, ok_bind, hb, Bool.false_eq_true, ite_false]
    cases hc : (e.name == TYPE_CONSTRUCTOR) with
    | true =>
      rw [hc, Bool.true_and] at hce
      simp only [hc, ite_true, req_some, ok_bind, isEmpty_map, hce,
        Bool.false_eq_true, ite_false, pure_eq_ok]
      simp [isVirtualEntry] at hp
      simp [hp, req_none, error_bind, FnKey.keyName]
      exact hp
    | false =>
      simp only [hc, Bool.false_eq_true, ite_false, pure_eq_ok, ok_bind,
        req_some]
      simp [isVirtualEntry] at hp
      simp [hp, req_none, error_bind, FnKey.keyName]
      exact hp
  | return_type =>
    obtain ⟨hb, hce, hp⟩ := keepEntry_parts h
    unfold _get_functions_entry eraseFn FnEntryData.toRaw
    simp only [req_some, ok_bind, hb, Bool.false_eq_true, ite_false]
    cases hc : (e.name == TYPE_CONSTRUCTOR) with
    | true =>
      rw [hc, Bool.true_and] at hce
      simp only [hc, ite_true, req_some, ok_bind, isEmpty_map, hce,
        Bool.false_eq_true, ite_false, pure_eq_ok]
      simp [isVirtualEntry] at hp
      simp [hp, req_none, req_some, ok_bind, error_bind, FnKey.keyName]
      exact hp
    | false =>
      simp only [hc, Bool.false_eq_true, ite_false, pure_eq_ok, ok_bind,
        req_some]
      simp [isVirtualEntry] at hp
      simp [hp, req_none, req_some, ok_bind, error_bind, FnKey.keyName]
      exact hp

lemma getFunctions_error_mid (pre : List FnEntryData) (x : RawFunction)
    (rest : List RawFunction) (s : Bool) (msg : String)
    (hx : _get_functions_entry s x = .error msg) :
    _get_functions (pre.map FnEntryData.toRaw ++ x :: rest) s = .error msg := by
  induction pre with
  | nil => simp [_get_functions, hx, error_bind]
  | cons e t ih =>
    simp [_get_functions, getFunctionsEntry_toRaw, ok_bind, ih, error_bind]

lemma getMembersEntry_erase (e : MemberData) (k : MemKey)
    (h : memKeyRead e k = true) :
    _get_members_entry (eraseMem e k) = .error k.keyName := by
  cases k with
  | name =>
    simp [_get_members_entry, eraseMem, MemberData.toRaw, req_none,
      error_bind, MemKey.keyName]
  | signature =>
    simp only [memKeyRead, Bool.not_eq_true'] at h
    simp [_get_members_entry, eraseMem, MemberData.toRaw, req_some, ok_bind,
      h, req_none, error_bind, MemKey.keyName]
  | description =>
    simp only [memKeyRead, Bool.not_eq_true'] at h
    simp [_get_members_entry, eraseMem, MemberData.toRaw, req_some, ok_bind,
      h, req_none, error_bind, MemKey.keyName]
  | data_type =>
    simp only [memKeyRead, Bool.not_eq_true'] at h
    simp [_get_members_entry, eraseMem, MemberData.toRaw, req_some, ok_bind,
      h, req_none, error_bind, MemKey.keyName]
  | default_value =>
    simp only [memKeyRead, Bool.not_eq_true'] at h
    simp [_get_members_entry, eraseMem, MemberData.toRaw, req_some, ok_bind,
      h, req_none, error_bind, MemKey.keyName]
  | exportKey =>
    simp only [memKeyRead, Bool.not_eq_true'] at h
    simp [_get_members_entry, eraseMem, MemberData.toRaw, req_some, ok_bind,
      h, req_none, error_bind, MemKey.keyName]
  | setter =>
    simp only [memKeyRead, Bool.not_eq_true'] at h
    simp [_get_members_entry, eraseMem, MemberData.toRaw, req_some, ok_bind,
      h, req_none, error_bind, MemKey.keyName]
  | getter =>
    simp only [memKeyRead, Bool.not_eq_true'] at h
    simp [_get_members_entry, eraseMem, MemberData.toRaw, req_some, ok_bind,
      h, req_none, error_bind, MemKey.keyName]

lemma getMembers_error_mid (pre : List MemberData) (x : RawMember)
    (rest : List RawMember) (msg : String)
    (hx : _get_members_entry x = .error msg) :
    _get_members (pre.map MemberData.toRaw ++ x :: rest) = .error msg := by
  induction pre with
  | nil => simp [_get_members, hx, error_bind]
  | cons e t ih =>
    simp [_get_members, getMembersEntry_toRaw, ok_bind, ih, error_bind]

lemma getSignalsEntry_erase (e : SignalData) (k : SigKey) :
    _get_signals_entry (eraseSig e k) = .error k.keyName := by
  cases k <;>
    simp [_get_signals_entry, eraseSig, SignalData.toRaw, req_some, ok_bind,
      req_none, error_bind, SigKey.keyName]

lemma getSignals_error_mid (pre : List SignalData) (x : RawSignal)
    (rest : List RawSignal) (msg : String)
    (hx : _get_signals_entry x = .error msg) :
    _get_signals (pre.map SignalData.toRaw ++ x :: rest) = .error msg := by
  induction pre with
  | nil => simp [_get_signals, hx, error_bind]
  | cons e t ih =>
    simp [_get_signals, _get_signals_entry, SignalData.toRaw, req_some,
      ok_bind, ih, error_bind]

lemma enumerationsEntry_erase (e : ConstantData) (k : ConstKey)
    (h : constKeyRead e k = true) :
    enumerations_entry (eraseConst e k) = .error k.keyName := by
  cases k with
  | data_type =>
    simp [enumerations_entry, eraseConst, ConstantData.toRaw, req_none,
      error_bind, ConstKey.keyName]
  | signature =>
    simp only [constKeyRead] at h
    simp [enumerations_entry, eraseConst, ConstantData.toRaw, req_some,
      ok_bind, beq_iff_eq.mp h, req_none, error_bind, ConstKey.keyName]
  | name =>
    simp only [constKeyRead] at h
    simp [enumerations_entry, eraseConst, ConstantData.toRaw, req_some,
      ok_bind, beq_iff_eq.mp h, req_none, error_bind, ConstKey.keyName]
  | description =>
    simp only [constKeyRead] at h
    simp [enumerations_entry, eraseConst, ConstantData.toRaw, req_some,
      ok_bind, beq_iff_eq.mp h, req_none, error_bind, ConstKey.keyName]
  | value =>
    simp only [constKeyRead] at h
    simp [enumerations_entry, eraseConst, ConstantData.toRaw, req_some,
      ok_bind, beq_iff_eq.mp h, req_none, error_bind, ConstKey.keyName]

lemma enumerations_error_mid (pre : List ConstantData) (x : RawConstant)
    (rest : List RawConstant) (msg : String)
    (hx : enumerations_entry x = .error msg) :
    enumerations (pre.map ConstantData.toRaw ++ x :: rest) = .error msg := by
  induction pre with
  | nil => simp [enumerations, hx, error_bind]
  | cons e t ih =>
    cases h : (e.data_type == "Dictionary") with
    | true => simp [enumerations, enumerationsEntry_toRaw, h, ok_bind, ih, error_bind]
    | false => simp [enumerations, enumerationsEntry_toRaw, h, ok_bind, ih, error_bind]

/-! ## Lemmas: from_dict with one deficient list entry -/

lemma from_dict_withMethods_error (T : ClassData) (l : List RawFunction)
    (msg : String) (h : _get_functions l false = .error msg) :
    from_dict (withMethods T l) = .error msg := by
  simp [from_dict, withMethods, ClassData.toRaw, req_some, ok_bind, h,
    error_bind]

lemma from_dict_withStatics_error (T : ClassData) (l : List RawFunction)
    (msg : String) (h : _get_functions l true = .error msg) :
    from_dict (withStatics T l) = .error msg := by
  simp [from_dict, withStatics, ClassData.toRaw, req_some, ok_bind,
    getFunctions_toRaw, h, error_bind]

lemma from_dict_withMembers_error (T : ClassData) (l : List RawMember)
    (msg : String) (h : _get_members l = .error msg) :
    from_dict (withMembers T l) = .error msg := by
  simp [from_dict, withMembers, ClassData.toRaw, req_some, ok_bind,
    getFunctions_toRaw, h, error_bind]

lemma from_dict_withSignals_error (T : ClassData) (l : List RawSignal)
    (msg : String) (h : _get_signals l = .error msg) :
    from_dict (withSignals T l) = .error msg := by
  simp [from_dict, withSignals, ClassData.toRaw, req_some, ok_bind,
    getFunctions_toRaw, getMembers_toRaw, h, error_bind]

lemma from_dict_withConstants_error (T : ClassData) (l : List RawConstant)
    (msg : String) (h : enumerations l = .error msg) :
    from_dict (withConstants T l) = .error msg := by
  simp [from_dict, withConstants, ClassData.toRaw, req_some, ok_bind,
    getFunctions_toRaw, getMembers_toRaw, getSignals_toRaw, h, error_bind]

lemma eraseTop_error (T : ClassData) (k : TopKey) :
    from_dict (eraseTop T k) = .error k.keyName := by
  cases k <;>
    simp [from_dict, eraseTop, ClassData.toRaw, TopKey.keyName, req_some,
      req_none, ok_bind, error_bind, getFunctions_toRaw, getMembers_toRaw,
      getSignals_toRaw, enumerations_toRaw]

/-- A retained entry has every one of its required keys read. -/
lemma keepEntry_fnKeyRead {s : Bool} {e : FnEntryData} (h : keepEntry s e = true)
    (k : FnKey) : fnKeyRead s e k = true := by
  obtain ⟨hb, hce, _⟩ := keepEntry_parts h
  have hb2 : e.name ∉ BUILTIN_VIRTUAL_CALLBACKS := by simpa using hb
  cases k with
  | name => rfl
  | description => simp [fnKeyRead, hb2, hce]
  | arguments => simp [fnKeyRead, hb2, h]
  | signature => simpa [fnKeyRead] using h
  | return_type => simpa [fnKeyRead] using h

/-! ## Lemmas: single textual replacement -/

lemma mk_toList (s : String) : String.mk s.toList = s := rfl

lemma toList_ne_nil_of_ne_empty {pat : String} (hp : pat ≠ "") :
    pat.toList ≠ [] := by
  intro h
  apply hp
  cases pat with
  | mk d =>
    simp only [String.toList] at h
    rw [h]

lemma replaceOneAux_absent (pat new l : List Char) (hp : pat ≠ [])
    (h : infixOfList pat l = false) : replaceOneAux pat new l = l := by
  induction l with
  | nil => simp [replaceOneAux, List.isEmpty_iff, hp]
  | cons c rest ih =>
    rw [infixOfList, Bool.or_eq_false_iff] at h
    simp [replaceOneAux, h.1, ih h.2]

lemma replaceOneAux_found (pat new l : List Char) (hp : pat ≠ [])
    (h : infixOfList pat l = true) :
    ∃ a b, l = a ++ pat ++ b ∧ replaceOneAux pat new l = a ++ new ++ b := by
  induction l with
  | nil =>
    rw [infixOfList] at h
    exact absurd (List.isEmpty_iff.mp h) hp
  | cons c rest ih =>
    cases hpre : pat.isPrefixOf (c :: rest) with
    | true =>
      obtain ⟨t, ht⟩ := List.isPrefixOf_iff_prefix.mp hpre
      refine ⟨[], (c :: rest).drop pat.length, ?_, ?_⟩
      · rw [← ht]; simp
      · rw [replaceOneAux, if_pos hpre]; simp
    | false =>
      rw [infixOfList, hpre, Bool.false_or] at h
      obtain ⟨a, b, h1, h2⟩ := ih h
      exact ⟨c :: a, b, by simp [h1], by simp [replaceOneAux, hpre, h2]⟩

lemma pyReplaceOne_not_contains (s pat new : String) (hp : pat ≠ "")
    (h : pyContains s pat = false) : pyReplaceOne s pat new = s := by
  unfold pyReplaceOne
  rw [replaceOneAux_absent _ _ _ (toList_ne_nil_of_ne_empty hp) h]
  exact mk_toList s

lemma pyReplaceOne_atMostOnce (s pat new : String) (hp : pat ≠ "") :
    ReplacedAtMostOnce s pat new (pyReplaceOne s pat new) := by
  cases h : pyContains s pat with
  | false => exact Or.inl ⟨h, pyReplaceOne_not_contains s pat new hp h⟩
  | true =>
    obtain ⟨a, b, h1, h2⟩ :=
      replaceOneAux_found pat.toList new.toList s.toList
        (toList_ne_nil_of_ne_empty hp) h
    exact Or.inr ⟨a, b, h1, h2⟩

/-! ## Lemmas: metadata extraction -/

lemma get_metadata_go_plain (l acc tags : List String) (cat : String)
    (h : ∀ x ∈ l, isPlainLine x = true) :
    get_metadata_go l acc tags cat = (acc ++ l, tags, cat) := by
  induction l generalizing acc with
  | nil => simp [get_metadata_go]
  | cons x t ih =>
    have hx := h x (by simp)
    rw [isPlainLine, Bool.and_eq_true, Bool.not_eq_true', Bool.not_eq_true'] at hx
    have ht := ih (acc ++ [x]) (fun y hy => h y (List.mem_cons_of_mem _ hy))
    rw [get_metadata_go, if_neg (by simp [hx.1]), if_neg (by simp [hx.2]), ht]
    simp

lemma isCategoryLine_not_tags {l : String} (h : isCategoryLine l = true) :
    isTagsLine l = false := by
  rw [isCategoryLine, pyStartsWith] at h
  rw [isTagsLine, pyStartsWith]
  by_contra ht
  rw [Bool.not_eq_false] at ht
  rcases List.prefix_or_prefix_of_prefix (List.isPrefixOf_iff_prefix.mp h)
      (List.isPrefixOf_iff_prefix.mp ht) with hh | hh
  · exact absurd (List.isPrefixOf_iff_prefix.mpr hh) (by decide)
  · exact absurd (List.isPrefixOf_iff_prefix.mpr hh) (by decide)

lemma isTagsLine_not_category {l : String} (h : isTagsLine l = true) :
    isCategoryLine l = false := by
  cases hc : isCategoryLine l with
  | false => rfl
  | true => rw [isCategoryLine_not_tags hc] at h; exact absurd h (by simp)

lemma get_metadata_go_plain_prefix (l rest acc tags : List String)
    (cat : String) (h : ∀ x ∈ l, isPlainLine x = true) :
    get_metadata_go (l ++ rest) acc tags cat
      = get_metadata_go rest (acc ++ l) tags cat := by
  induction l generalizing acc with
  | nil => simp
  | cons x t ih =>
    have hx := h x (by simp)
    rw [isPlainLine, Bool.and_eq_true, Bool.not_eq_true', Bool.not_eq_true'] at hx
    rw [List.cons_append, get_metadata_go, if_neg (by simp [hx.1]),
      if_neg (by simp [hx.2]),
      ih (acc ++ [x]) (fun y hy => h y (List.mem_cons_of_mem _ hy))]
    simp

lemma write_member_eq_spec (fmt : String) (m : Member) :
    write_member fmt m = write_member_spec fmt m := by
  unfold write_member write_member_spec
  by_cases hs : m.setter = ""
  · simp [hs]
  · by_cases hg : m.getter = "" <;> simp [hs, hg]

lemma write_enum_not_hugo {fmt : String}
    (h : (fmt == OutputFormats.HUGO) = false) :
    write_enum fmt = write_enum "unrecognized" := by
  funext e
  have hu : (("unrecognized" : String) == OutputFormats.HUGO) = false := by
    decide
  simp [write_enum, h, hu]

lemma write_member_not_hugo {fmt : String}
    (h : (fmt == OutputFormats.HUGO) = false) :
    write_member fmt = write_member "unrecognized" := by
  funext m
  have hu : (("unrecognized" : String) == OutputFormats.HUGO) = false := by
    decide
  simp [write_member, h, hu]

lemma write_function_not_hugo {fmt : String}
    (h : (fmt == OutputFormats.HUGO) = false) :
    write_function fmt = write_function "unrecognized" := by
  funext f
  have hu : (("unrecognized" : String) == OutputFormats.HUGO) = false := by
    decide
  simp [write_function, h, hu]

lemma append_ne_of_not_isPrefixOf {p t : String}
    (h : p.toList.isPrefixOf t.toList = false) (x : String) : p ++ x ≠ t := by
  intro hEq
  have hpre : p.toList.isPrefixOf t.toList = true := by
    apply List.isPrefixOf_iff_prefix.mpr
    refine ⟨x.toList, ?_⟩
    rw [← hEq]
    simp [String.toList, String.data_append]
  rw [hpre] at h
  exact absurd h (by simp)

lemma write_function_shapes {fmt : String} {f : Function} {t : String}
    (ht : t ∈ write_function fmt f) :
    t = "" ∨ t = f.description
    ∨ (∃ x, t = String.mk (List.replicate 3 '#') ++ " " ++ x)
    ∨ (∃ x, t = "```gdscript\n" ++ x)
    ∨ (∃ x, t = "\x7b\x7b< highlight gdscript >\x7d\x7d\n" ++ x) := by
  unfold write_function make_heading at ht
  by_cases hh : (fmt == OutputFormats.HUGO) = true
  · rw [if_pos hh] at ht
    by_cases hd : f.description ≠ ""
    · rw [if_pos hd] at ht
      simp only [List.mem_append, List.mem_cons, List.not_mem_nil,
        or_false] at ht
      rcases ht with ((h | h) | (h | h)) | (h | h)
      · exact Or.inr (Or.inr (Or.inl ⟨_, h⟩))
      · exact Or.inl h
      · exact Or.inr (Or.inr (Or.inr (Or.inr ⟨_, h⟩)))
      · exact Or.inl h
      · exact Or.inl h
      · exact Or.inr (Or.inl h)
    · rw [if_neg hd] at ht
      simp only [List.mem_append, List.mem_cons, List.not_mem_nil,
        or_false] at ht
      rcases ht with (h | h) | (h | h)
      · exact Or.inr (Or.inr (Or.inl ⟨_, h⟩))
      · exact Or.inl h
      · exact Or.inr (Or.inr (Or.inr (Or.inr ⟨_, h⟩)))
      · exact Or.inl h
  · rw [if_neg hh] at ht
    by_cases hd : f.description ≠ ""
    · rw [if_pos hd] at ht
      simp only [List.mem_append, List.mem_cons, List.not_mem_nil,
        or_false] at ht
      rcases ht with ((h | h) | (h | h)) | (h | h)
      · exact Or.inr (Or.inr (Or.inl ⟨_, h⟩))
      · exact Or.inl h
      · exact Or.inr (Or.inr (Or.inr (Or.inl ⟨_, h⟩)))
      · exact Or.inl h
      · exact Or.inl h
      · exact Or.inr (Or.inl h)
    · rw [if_neg hd] at ht
      simp only [List.mem_append, List.mem_cons, List.not_mem_nil,
        or_false] at ht
      rcases ht with (h | h) | (h | h)
      · exact Or.inr (Or.inr (Or.inl ⟨_, h⟩))
      · exact Or.inl h
      · exact Or.inr (Or.inr (Or.inr (Or.inl ⟨_, h⟩)))
      · exact Or.inl h

lemma as_markdown_content (gd : GDScriptClass) (args : Arguments) :
    (as_markdown gd args).content =
      (if args.format == OutputFormats.HUGO then
         hugo_front_matter_lines gd args else [])
      ++ [make_comment ("Auto-generated from JSON by GDScript docs maker. "
            ++ "Do not edit this document directly.") ++ "\n"]
      ++ (if args.format == OutputFormats.MARDKOWN then
            make_heading (if gd.tags.contains "abstract" then
              gd.name ++ " " ++ surround_with_html "(abstract)" "small"
            else gd.name) 1
          else [])
      ++ [make_bold "Extends:" ++ " " ++ gd.extends_as_string]
      ++ markdown_section "Description" 2 [gd.description]
      ++ markdown_section "Properties" 2 (summarize_members gd)
      ++ markdown_section "Methods" 2 (summarize_methods gd)
      ++ markdown_section "Signals" 2 (write_signals gd.signals)
      ++ markdown_section "Enumerations" 2 (write_enums gd.enums args.format)
      ++ markdown_section "Property Descriptions" 2
          (write_members gd.members args.format)
      ++ markdown_section "Method Descriptions" 2
          (write_functions gd.functions args.format) := rfl

lemma mem_markdown_section {ti : String} {lv : Nat} {content : List String}
    {t : String} (h : t ∈ markdown_section ti lv content) :
    t = String.mk (List.replicate lv '#') ++ " " ++ ti ∨ t = "" ∨ t ∈ content := by
  unfold markdown_section at h
  by_cases hc : content.isEmpty = true
  · rw [if_pos hc] at h
    exact absurd h (List.not_mem_nil t)
  · rw [if_neg hc] at h
    unfold make_heading at h
    simp only [List.mem_append, List.mem_cons, List.not_mem_nil,
      or_false] at h
    tauto

lemma not_mem_as_markdown_aux (gd : GDScriptClass) (args : Arguments)
    (t : String)
    (hm : gd.members = []) (hsg : gd.signals = []) (he : gd.enums = [])
    (hdesc : gd.description ≠ t)
    (hfdesc : ∀ f ∈ gd.functions, f.description ≠ t)
    (h1 : t ≠ "+++")
    (h2 : make_comment ("Auto-generated from JSON by GDScript docs maker. "
        ++ "Do not edit this document directly.") ++ "\n" ≠ t)
    (h3 : t ≠ "")
    (h4 : ∀ x, ("title: " : String) ++ x ≠ t)
    (h5 : ∀ x, ("category: " : String) ++ x ≠ t)
    (h6 : ∀ x, ("description: " : String) ++ x ≠ t)
    (h7 : ∀ x, String.mk (List.replicate 1 '#') ++ " " ++ x ≠ t)
    (h8 : ∀ x, String.mk (List.replicate 3 '#') ++ " " ++ x ≠ t)
    (h9 : ∀ x, make_bold "Extends:" ++ " " ++ x ≠ t)
    (h10 : ∀ x, ("| " : String) ++ x ≠ t)
    (h11 : ∀ x, ("```gdscript\n" : String) ++ x ≠ t)
    (h12 : ∀ x, ("\x7b\x7b< highlight gdscript >\x7d\x7d\n" : String) ++ x ≠ t)
    (h13 : String.mk (List.replicate 2 '#') ++ " " ++ "Description" ≠ t)
    (h14 : String.mk (List.replicate 2 '#') ++ " " ++ "Methods" ≠ t)
    (h15 : String.mk (List.replicate 2 '#') ++ " " ++ "Method Descriptions" ≠ t) :
    t ∉ (as_markdown gd args).content := by
  intro hmem
  rw [as_markdown_content] at hmem
  have e1 : summarize_members gd = [] := by simp [summarize_members, hm]
  have e2 : write_signals gd.signals = [] := by simp [write_signals, hsg]
  have e3 : write_enums gd.enums args.format = [] := by
    simp [write_enums, he]
  have e4 : write_members gd.members args.format = [] := by
    simp [write_members, hm]
  rw [e1, e2, e3, e4] at hmem
  simp only [List.mem_append, List.mem_cons, List.not_mem_nil, or_false,
    markdown_section, List.isEmpty_nil, if_true, ite_true] at hmem
  rcases hmem with ((((((hx | hx) | hx) | hx) | hx) | hx) | hx)
  · by_cases hfm : (args.format == OutputFormats.HUGO) = true
    · rw [if_pos hfm] at hx
      unfold hugo_front_matter_lines at hx
      simp only [List.mem_cons, List.not_mem_nil, or_false] at hx
      rcases hx with hx | hx | hx | hx | hx
      · exact h1 hx
      · exact h4 _ hx.symm
      · exact h5 _ hx.symm
      · exact h6 _ hx.symm
      · exact h1 hx
    · rw [if_neg hfm] at hx
      exact absurd hx (List.not_mem_nil t)
  · exact h2 hx.symm
  · by_cases hfm : (args.format == OutputFormats.MARDKOWN) = true
    · rw [if_pos hfm] at hx
      unfold make_heading at hx
      simp only [List.mem_cons, List.not_mem_nil, or_false] at hx
      rcases hx with hx | hx
      · exact h7 _ hx.symm
      · exact h3 hx
    · rw [if_neg hfm] at hx
      exact absurd hx (List.not_mem_nil t)
  · exact h9 _ hx.symm
  · rcases mem_markdown_section hx with hy | hy | hy
    · exact h13 hy.symm
    · exact h3 hy
    · simp only [List.mem_cons, List.not_mem_nil, or_false] at hy
      exact hdesc hy.symm
  · rcases mem_markdown_section hx with hy | hy | hy
    · exact h14 hy.symm
    · exact h3 hy
    · rw [show summarize_methods gd
          = make_table_row ["Type", "Name"]
            :: make_table_row (["Type", "Name"].map (fun _ => "------"))
            :: gd.functions.map (fun f => make_table_row f.summarize)
          from rfl] at hy
      simp only [List.mem_cons, List.mem_map] at hy
      rcases hy with hy | hy | ⟨f, _, hy⟩
      · exact h10 (joinSep " | " ["Type", "Name"] ++ " |")
          (by rw [hy, make_table_row])
      · exact h10 (joinSep " | " (["Type", "Name"].map (fun _ => "------"))
          ++ " |") (by rw [hy, make_table_row])
      · exact h10 (joinSep " | " f.summarize ++ " |")
          (by rw [← hy, make_table_row])
  · rcases mem_markdown_section hx with hy | hy | hy
    · exact h15 hy.symm
    · exact h3 hy
    · unfold write_functions at hy
      simp only [List.mem_flatten, List.mem_map] at hy
      obtain ⟨lf, ⟨f, hf, hlf⟩, hin⟩ := hy
      rw [← hlf] at hin
      rcases write_function_shapes hin with hz | hz | ⟨x, hz⟩ | ⟨x, hz⟩ | ⟨x, hz⟩
      · exact h3 hz
      · exact hfdesc f hf hz.symm
      · exact h8 _ hz.symm
      · exact h11 _ hz.symm
      · exact h12 _ hz.symm

/-! ## Claim theorems -/

/-- C1: for a description whose lines consist of exactly one `tags:` line and
one `category:` line (in either order, at any position) among otherwise plain
lines, `get_metadata` returns the tag list of the tags line (the text after
its colon split on commas, entries trimmed), the category of the category
line (the trimmed text after its colon), and the remaining lines rejoined
with newlines in their original order; matching is case-insensitive (both
tests look at the trimmed, lower-cased line). -/
theorem get_metadata_extracts_tags_and_category
    (description t c : String) (pre mid post : List String)
    (hsplit : pySplit description '\n' = pre ++ (t :: (mid ++ c :: post))
      ∨ pySplit description '\n' = pre ++ (c :: (mid ++ t :: post)))
    (ht : isTagsLine t = true) (hc : isCategoryLine c = true)
    (hplain : ∀ l ∈ pre ++ mid ++ post, isPlainLine l = true) :
    get_metadata description
      = (pyJoin '\n' (pre ++ mid ++ post), tagsOfLine t, categoryOfLine c) := by
  have hpre : ∀ l ∈ pre, isPlainLine l = true :=
    fun l hl => hplain l (by simp [hl])
  have hmid : ∀ l ∈ mid, isPlainLine l = true :=
    fun l hl => hplain l (by simp [hl])
  have hpost : ∀ l ∈ post, isPlainLine l = true :=
    fun l hl => hplain l (by simp [hl])
  have htc := isTagsLine_not_category ht
  have hct := isCategoryLine_not_tags hc
  unfold get_metadata
  rcases hsplit with h | h
  · rw [h, get_metadata_go_plain_prefix pre _ [] [] "" hpre, get_metadata_go,
      if_pos ht, get_metadata_go_plain_prefix mid _ _ _ _ hmid,
      get_metadata_go, if_neg (by simp [hct]), if_pos hc,
      get_metadata_go_plain post _ _ _ hpost]
    simp
  · rw [h, get_metadata_go_plain_prefix pre _ [] [] "" hpre, get_metadata_go,
      if_neg (by simp [hct]), if_pos hc,
      get_metadata_go_plain_prefix mid _ _ _ _ hmid,
      get_metadata_go, if_pos ht,
      get_metadata_go_plain post _ _ _ hpost]
    simp

/-- C1 witness: the theorem applied to a concrete docstring. -/
theorem get_metadata_extracts_tags_and_category_witness :
    isTagsLine "Tags: a, b" = true ∧ isCategoryLine "Category: Foo" = true
    ∧ get_metadata "Hello\nTags: a, b\nCategory: Foo\nWorld"
        = (pyJoin '\n' ["Hello", "World"], tagsOfLine "Tags: a, b",
           categoryOfLine "Category: Foo") :=
  ⟨by decide, by decide,
    get_metadata_extracts_tags_and_category _ "Tags: a, b" "Category: Foo"
      ["Hello"] [] ["World"] (Or.inl (by decide)) (by decide) (by decide)
      (by decide)⟩

/-- C2: mapping the raw method list through the builder succeeds and returns
exactly one `Function`, in input order, for every entry that is retained —
an entry is excluded precisely when its name is in the fixed built-in
callback list, or it is the zero-argument constructor `_init`, or its name
starts with an underscore and it is not classified virtual (`keepEntry`
restates the claim's exclusion rule; `buildEntry` the built function). -/
theorem get_functions_filters_entries (l : List FnEntryData) (s : Bool) :
    _get_functions (l.map FnEntryData.toRaw) s
      = .ok ((l.filter (keepEntry s)).map (buildEntry s)) :=
  getFunctions_toRaw l s

/-- C3: a retained entry's kind follows the priority static > virtual >
plain method: entries from the static-functions list are `STATIC` (even when
tagged `virtual`), non-static entries whose extracted tags contain `virtual`
are `VIRTUAL`, and every other retained entry is `METHOD`. -/
theorem retained_function_kind_priority (s : Bool) (e : FnEntryData)
    (h : keepEntry s e = true) :
    ∃ f, _get_functions [e.toRaw] s = .ok [f]
      ∧ (s = true → f.kind = FunctionTypes.STATIC)
      ∧ (s = false →
          (get_metadata e.description).2.1.contains "virtual" = true →
          f.kind = FunctionTypes.VIRTUAL)
      ∧ (s = false →
          (get_metadata e.description).2.1.contains "virtual" = false →
          f.kind = FunctionTypes.METHOD) := by
  refine ⟨buildEntry s e, ?_, ?_, ?_, ?_⟩
  · simpa [h] using getFunctions_toRaw [e] s
  · intro hs; simp [buildEntry, hs]
  · intro hs hv
    have hv2 : "virtual" ∈ (get_metadata e.description).2.1 := by simpa using hv
    simp [buildEntry, isVirtualEntry, hs, hv2]
  · intro hs hv
    have hv2 : "virtual" ∉ (get_metadata e.description).2.1 := by simpa using hv
    simp [buildEntry, isVirtualEntry, hs, hv2]

/-- C3 witness: a static function tagged `virtual` is still `STATIC`. -/
theorem retained_function_kind_priority_witness :
    keepEntry true ⟨"foo", "foo() -> void", "tags: virtual", [], "void",
      some 0⟩ = true
    ∧ ∃ f, _get_functions
        [FnEntryData.toRaw ⟨"foo", "foo() -> void", "tags: virtual", [],
          "void", some 0⟩] true = .ok [f]
      ∧ (true = true → f.kind = FunctionTypes.STATIC)
      ∧ (true = false →
          (get_metadata "tags: virtual").2.1.contains "virtual" = true →
          f.kind = FunctionTypes.VIRTUAL)
      ∧ (true = false →
          (get_metadata "tags: virtual").2.1.contains "virtual" = false →
          f.kind = FunctionTypes.METHOD) :=
  ⟨by decide,
    retained_function_kind_priority true
      ⟨"foo", "foo() -> void", "tags: virtual", [], "void", some 0⟩
      (by decide)⟩

/-- C5: a retained entry's return type is the raw return type with the first
occurrence of `null` replaced by `void`, and its signature the raw signature
with the first occurrence of `-> null` replaced by `-> void`; a field not
containing the pattern is stored unchanged, and at most one replacement
happens in each field. -/
theorem retained_function_null_to_void (s : Bool) (e : FnEntryData)
    (h : keepEntry s e = true) :
    ∃ f, _get_functions [e.toRaw] s = .ok [f]
      ∧ f.return_type = pyReplaceOne e.return_type "null" "void"
      ∧ f.signature = pyReplaceOne e.signature "-> null" "-> void"
      ∧ (pyContains e.return_type "null" = false →
          f.return_type = e.return_type)
      ∧ (pyContains e.signature "-> null" = false →
          f.signature = e.signature)
      ∧ ReplacedAtMostOnce e.return_type "null" "void" f.return_type
      ∧ ReplacedAtMostOnce e.signature "-> null" "-> void" f.signature := by
  refine ⟨buildEntry s e, ?_, rfl, rfl, ?_, ?_, ?_, ?_⟩
  · simpa [h] using getFunctions_toRaw [e] s
  · intro hnc
    exact pyReplaceOne_not_contains _ _ _ (by decide) hnc
  · intro hnc
    exact pyReplaceOne_not_contains _ _ _ (by decide) hnc
  · exact pyReplaceOne_atMostOnce _ _ _ (by decide)
  · exact pyReplaceOne_atMostOnce _ _ _ (by decide)

/-- C5 witness: the theorem applied to a retained method whose raw return
type is `null`. -/
theorem retained_function_null_to_void_witness :
    keepEntry false ⟨"bar", "bar() -> null", "", [], "null", some 0⟩ = true
    ∧ ∃ f, _get_functions
        [FnEntryData.toRaw ⟨"bar", "bar() -> null", "", [], "null", some 0⟩]
        false = .ok [f]
      ∧ f.return_type = pyReplaceOne "null" "null" "void"
      ∧ f.signature = pyReplaceOne "bar() -> null" "-> null" "-> void"
      ∧ (pyContains "null" "null" = false → f.return_type = "null")
      ∧ (pyContains "bar() -> null" "-> null" = false →
          f.signature = "bar() -> null")
      ∧ ReplacedAtMostOnce "null" "null" "void" f.return_type
      ∧ ReplacedAtMostOnce "bar() -> null" "-> null" "-> void" f.signature :=
  ⟨by decide,
    retained_function_null_to_void false
      ⟨"bar", "bar() -> null", "", [], "null", some 0⟩ (by decide)⟩


/-- C4 counterexample: this record has a `name` key but its nested method
entry (the engine callback `_process`) lacks the required `signature`,
`description`, `arguments` and `return_type` keys; the claim demands a
failure naming an absent key, yet `from_dict` succeeds because the entry is
dropped before any of those keys is read. -/
theorem from_dict_skipped_entry_missing_field_ok :
    exceptIsOk (from_dict skippedEntryRecord) = true := by decide

/-- C4 (amended): a raw class record with a `name` key that lacks exactly
one other required key fails with an error naming the absent key, provided
the key is one the builder reads: any of the eight top-level keys, or a
required field of a nested method, static-function, member, signal or
constant entry that is not dropped by the builder's filters before the
field is needed (`fnKeyRead`, `memKeyRead` and `constKeyRead` spell out
when each nested field is read; signal fields are always read). -/
theorem from_dict_missing_read_key_errors :
    (∀ (T : ClassData) (k : TopKey),
      from_dict (eraseTop T k) = .error k.keyName)
    ∧ (∀ (T : ClassData) (pre : List FnEntryData) (e : FnEntryData)
        (post : List RawFunction) (k : FnKey), fnKeyRead false e k = true →
        from_dict (withMethods T
          (pre.map FnEntryData.toRaw ++ eraseFn e k :: post))
          = .error k.keyName)
    ∧ (∀ (T : ClassData) (pre : List FnEntryData) (e : FnEntryData)
        (post : List RawFunction) (k : FnKey), fnKeyRead true e k = true →
        from_dict (withStatics T
          (pre.map FnEntryData.toRaw ++ eraseFn e k :: post))
          = .error k.keyName)
    ∧ (∀ (T : ClassData) (pre : List MemberData) (e : MemberData)
        (post : List RawMember) (k : MemKey), memKeyRead e k = true →
        from_dict (withMembers T
          (pre.map MemberData.toRaw ++ eraseMem e k :: post))
          = .error k.keyName)
    ∧ (∀ (T : ClassData) (pre : List SignalData) (e : SignalData)
        (post : List RawSignal) (k : SigKey),
        from_dict (withSignals T
          (pre.map SignalData.toRaw ++ eraseSig e k :: post))
          = .error k.keyName)
    ∧ (∀ (T : ClassData) (pre : List ConstantData) (e : ConstantData)
        (post : List RawConstant) (k : ConstKey), constKeyRead e k = true →
        from_dict (withConstants T
          (pre.map ConstantData.toRaw ++ eraseConst e k :: post))
          = .error k.keyName) := by
  refine ⟨eraseTop_error, ?_, ?_, ?_, ?_, ?_⟩
  · intro T pre e post k hk
    exact from_dict_withMethods_error T _ _
      (getFunctions_error_mid pre _ post false _
        (getFunctionsEntry_erase false e k hk))
  · intro T pre e post k hk
    exact from_dict_withStatics_error T _ _
      (getFunctions_error_mid pre _ post true _
        (getFunctionsEntry_erase true e k hk))
  · intro T pre e post k hk
    exact from_dict_withMembers_error T _ _
      (getMembers_error_mid pre _ post _ (getMembersEntry_erase e k hk))
  · intro T pre e post k
    exact from_dict_withSignals_error T _ _
      (getSignals_error_mid pre _ post _ (getSignalsEntry_erase e k))
  · intro T pre e post k hk
    exact from_dict_withConstants_error T _ _
      (enumerations_error_mid pre _ post _ (enumerationsEntry_erase e k hk))

/-- C4 witness: erasing the `signature` key of a retained method entry makes
`from_dict` fail naming `signature`. -/
theorem from_dict_missing_read_key_errors_witness :
    fnKeyRead false sampleFnEntry FnKey.signature = true
    ∧ from_dict (withMethods sampleClassData
        [eraseFn sampleFnEntry FnKey.signature])
      = .error (FnKey.signature.keyName) :=
  ⟨by decide,
    from_dict_missing_read_key_errors.2.1 sampleClassData [] sampleFnEntry []
      FnKey.signature (by decide)⟩

/-- C10 counterexample: absence of per-method keys other than `rpc_mode` is
also tolerated — this `_process` entry lacks `signature`, `description`,
`arguments` and `return_type` (but has `rpc_mode`), and the builder
succeeds, dropping the entry. -/
theorem get_functions_tolerates_missing_keys_of_skipped_entry :
    _get_functions [skippedRawFn] false = .ok [] := rfl

/-- C10 (amended): a method entry whose `rpc_mode` key is absent but whose
other required fields are present never makes the builder fail — a retained
entry yields a `Function` whose `rpc_mode` defaults to `0`, a dropped entry
simply yields nothing; and for a retained entry, `rpc_mode` is the only
per-method key whose absence is tolerated: erasing any other key makes the
builder fail naming that key. -/
theorem rpc_mode_only_optional_for_retained :
    (∀ (s : Bool) (e : FnEntryData), e.rpc_mode = none →
      (keepEntry s e = true →
        _get_functions [e.toRaw] s = .ok [buildEntry s e]
          ∧ (buildEntry s e).rpc_mode = 0)
      ∧ (keepEntry s e = false → _get_functions [e.toRaw] s = .ok []))
    ∧ (∀ (s : Bool) (e : FnEntryData) (k : FnKey), keepEntry s e = true →
        _get_functions [eraseFn e k] s = .error k.keyName) := by
  constructor
  · intro s e hrpc
    constructor
    · intro hk
      refine ⟨by simpa [hk] using getFunctions_toRaw [e] s, ?_⟩
      simp [buildEntry, hrpc]
    · intro hk
      simpa [hk] using getFunctions_toRaw [e] s
  · intro s e k hk
    have h := getFunctionsEntry_erase s e k (keepEntry_fnKeyRead hk k)
    simp [_get_functions, h, error_bind]

/-- C10 witness: a retained entry without `rpc_mode` defaults to `0`. -/
theorem rpc_mode_only_optional_for_retained_witness :
    rpcSampleEntry.rpc_mode = none ∧ keepEntry false rpcSampleEntry = true
    ∧ (_get_functions [rpcSampleEntry.toRaw] false
        = .ok [buildEntry false rpcSampleEntry]
      ∧ (buildEntry false rpcSampleEntry).rpc_mode = 0) :=
  ⟨rfl, by decide,
    (rpc_mode_only_optional_for_retained.1 false rpcSampleEntry rfl).1
      (by decide)⟩

/-- C8: the docstring of `get_grouped_by_category` promises the classes
sorted and grouped by their `category` attribute, but line 166 passes the
key function to `sorted` positionally, which Python 3 rejects: for every
non-empty collection the call raises `TypeError` (modelled as
`Except.error`) instead of returning groups; only the empty collection
returns the documented empty list. -/
theorem get_grouped_by_category_raises_on_nonempty
    (classes : List GDScriptClass) (h : classes ≠ []) :
    get_grouped_by_category classes
      = .error "TypeError: sorted expected 1 argument, got 2"
    ∧ get_grouped_by_category ([] : List GDScriptClass) = .ok [] := by
  refine ⟨?_, rfl⟩
  have h1 : classes.isEmpty = false := by
    simpa [List.isEmpty_iff] using h
  have h2 : "category" ∈ classAttributeNames := by decide
  simp [get_grouped_by_category, _get_grouped_by, h1, h2]

/-- C8 witness: the theorem applied to a one-element collection. -/
theorem get_grouped_by_category_raises_on_nonempty_witness :
    ([sampleClass] : List GDScriptClass) ≠ []
    ∧ (get_grouped_by_category [sampleClass]
        = .error "TypeError: sorted expected 1 argument, got 2"
      ∧ get_grouped_by_category ([] : List GDScriptClass) = .ok []) :=
  ⟨by simp,
    get_grouped_by_category_raises_on_nonempty [sampleClass] (by simp)⟩


/-- C6 counterexample: a member with an empty setter and a non-empty getter —
the claim requires its accessor table to be emitted with a Getter row, but
the source's duplicated setter check emits no table at all: the rendered
Property Descriptions lines for this member contain no Getter row. -/
theorem write_member_getter_only_no_table :
    write_members [getterOnlyMember] OutputFormats.MARDKOWN
      = ["### x", "", "```gdscript\nvar x\n```", "", ""]
    ∧ make_table_row ["Getter", "get_x"]
        ∉ write_members [getterOnlyMember] OutputFormats.MARDKOWN :=
  ⟨by decide, by decide⟩

/-- C6 (amended): in the Property Descriptions section the accessor table of
a member is emitted exactly when its setter is non-empty (the source checks
the setter twice and never the getter); when emitted it holds a Setter row
and, if the getter is also non-empty, a Getter row — a member with an empty
setter and a non-empty getter gets no table. -/
theorem write_members_table_requires_setter (members : List Member)
    (output_format : String) :
    write_members members output_format
      = (members.map (write_member_spec output_format)).flatten := by
  unfold write_members
  rw [funext (write_member_eq_spec output_format)]

/-- C7 counterexample: rendering with the unrecognized dialect value
`asciidoc` does not surface any error — it silently produces this complete
document (with neither front matter nor a top-level heading). -/
theorem as_markdown_unknown_dialect_produces_document :
    as_markdown sampleClass ⟨"asciidoc"⟩
      = ⟨"Foo",
         ["<!-- Auto-generated from JSON by GDScript docs maker. "
            ++ "Do not edit this document directly. -->\n",
          "**Extends:** Node",
          "## Description", "", "",
          "## Methods", "", "| Type | Name |", "| ------ | ------ |"]⟩ := by
  decide

/-- C7 (amended): an unrecognized dialect value is not rejected: for every
dialect value other than the two recognized ones, `as_markdown` silently
produces the same document, which has no front matter, no top-level heading,
and plain fenced code blocks. -/
theorem as_markdown_unknown_dialect_plain_body (gd : GDScriptClass)
    (fmt : String) (h1 : fmt ≠ OutputFormats.HUGO)
    (h2 : fmt ≠ OutputFormats.MARDKOWN) :
    as_markdown gd ⟨fmt⟩ = unrecognized_dialect_document gd := by
  have hb1 : (fmt == OutputFormats.HUGO) = false := by simpa using h1
  have hb2 : (fmt == OutputFormats.MARDKOWN) = false := by simpa using h2
  unfold as_markdown unrecognized_dialect_document
  simp only [hb1, hb2, Bool.false_eq_true, if_false, write_enums,
    write_members, write_functions, write_enum_not_hugo hb1,
    write_member_not_hugo hb1, write_function_not_hugo hb1]
  simp

/-- C7 witness: the amended theorem applied to the dialect `asciidoc`. -/
theorem as_markdown_unknown_dialect_plain_body_witness :
    ("asciidoc" : String) ≠ OutputFormats.HUGO
    ∧ ("asciidoc" : String) ≠ OutputFormats.MARDKOWN
    ∧ as_markdown sampleClass ⟨"asciidoc"⟩
        = unrecognized_dialect_document sampleClass :=
  ⟨by decide, by decide,
    as_markdown_unknown_dialect_plain_body sampleClass "asciidoc" (by decide)
      (by decide)⟩


/-- C9: for a class with no members, no signals and no enumerations (whose
free-text description fields do not themselves spell one of the three
headers), the rendered document contains no `## Properties`, `## Signals`
or `## Enumerations` header line, yet always contains the `## Methods`
header and the Methods table's header row — even with zero functions. -/
theorem as_markdown_empty_sections_omitted_methods_present
    (gd : GDScriptClass) (args : Arguments)
    (hm : gd.members = []) (hsg : gd.signals = []) (he : gd.enums = [])
    (hdesc : gd.description
      ∉ (["## Properties", "## Signals", "## Enumerations"] : List String))
    (hfdesc : ∀ f ∈ gd.functions, f.description
      ∉ (["## Properties", "## Signals", "## Enumerations"] : List String)) :
    "## Properties" ∉ (as_markdown gd args).content
    ∧ "## Signals" ∉ (as_markdown gd args).content
    ∧ "## Enumerations" ∉ (as_markdown gd args).content
    ∧ "## Methods" ∈ (as_markdown gd args).content
    ∧ make_table_row ["Type", "Name"] ∈ (as_markdown gd args).content := by
  have hMethodsMem : "## Methods" ∈ markdown_section "Methods" 2
      (summarize_methods gd) := by
    rw [show markdown_section "Methods" 2 (summarize_methods gd)
        = (String.mk (List.replicate 2 '#') ++ " " ++ "Methods") :: ""
          :: summarize_methods gd from rfl]
    exact List.mem_cons.mpr (Or.inl (by decide))
  have hRowMem : make_table_row ["Type", "Name"]
      ∈ markdown_section "Methods" 2 (summarize_methods gd) := by
    rw [show markdown_section "Methods" 2 (summarize_methods gd)
        = (String.mk (List.replicate 2 '#') ++ " " ++ "Methods") :: ""
          :: make_table_row ["Type", "Name"]
          :: make_table_row (["Type", "Name"].map (fun _ => "------"))
          :: gd.functions.map (fun f => make_table_row f.summarize)
        from rfl]
    simp
  refine ⟨?_, ?_, ?_, ?_, ?_⟩
  · exact not_mem_as_markdown_aux gd args _ hm hsg he
      (fun hEq => hdesc (by simp [hEq]))
      (fun f hf hEq => hfdesc f hf (by simp [hEq]))
      (by decide) (by decide) (by decide)
      (fun x => append_ne_of_not_isPrefixOf (by decide) x)
      (fun x => append_ne_of_not_isPrefixOf (by decide) x)
      (fun x => append_ne_of_not_isPrefixOf (by decide) x)
      (fun x => append_ne_of_not_isPrefixOf (by decide) x)
      (fun x => append_ne_of_not_isPrefixOf (by decide) x)
      (fun x => append_ne_of_not_isPrefixOf (by decide) x)
      (fun x => append_ne_of_not_isPrefixOf (by decide) x)
      (fun x => append_ne_of_not_isPrefixOf (by decide) x)
      (fun x => append_ne_of_not_isPrefixOf (by decide) x)
      (by decide) (by decide) (by decide)
  · exact not_mem_as_markdown_aux gd args _ hm hsg he
      (fun hEq => hdesc (by simp [hEq]))
      (fun f hf hEq => hfdesc f hf (by simp [hEq]))
      (by decide) (by decide) (by decide)
      (fun x => append_ne_of_not_isPrefixOf (by decide) x)
      (fun x => append_ne_of_not_isPrefixOf (by decide) x)
      (fun x => append_ne_of_not_isPrefixOf (by decide) x)
      (fun x => append_ne_of_not_isPrefixOf (by decide) x)
      (fun x => append_ne_of_not_isPrefixOf (by decide) x)
      (fun x => append_ne_of_not_isPrefixOf (by decide) x)
      (fun x => append_ne_of_not_isPrefixOf (by decide) x)
      (fun x => append_ne_of_not_isPrefixOf (by decide) x)
      (fun x => append_ne_of_not_isPrefixOf (by decide) x)
      (by decide) (by decide) (by decide)
  · exact not_mem_as_markdown_aux gd args _ hm hsg he
      (fun hEq => hdesc (by simp [hEq]))
      (fun f hf hEq => hfdesc f hf (by simp [hEq]))
      (by decide) (by decide) (by decide)
      (fun x => append_ne_of_not_isPrefixOf (by decide) x)
      (fun x => append_ne_of_not_isPrefixOf (by decide) x)
      (fun x => append_ne_of_not_isPrefixOf (by decide) x)
      (fun x => append_ne_of_not_isPrefixOf (by decide) x)
      (fun x => append_ne_of_not_isPrefixOf (by decide) x)
      (fun x => append_ne_of_not_isPrefixOf (by decide) x)
      (fun x => append_ne_of_not_isPrefixOf (by decide) x)
      (fun x => append_ne_of_not_isPrefixOf (by decide) x)
      (fun x => append_ne_of_not_isPrefixOf (by decide) x)
      (by decide) (by decide) (by decide)
  · rw [as_markdown_content]
    simp only [List.mem_append]
    tauto
  · rw [as_markdown_content]
    simp only [List.mem_append]
    tauto

/-- C9 witness: the theorem applied to a concrete class with no members,
signals, enums or functions. -/
theorem as_markdown_empty_sections_omitted_methods_present_witness :
    sampleClass.members = [] ∧ sampleClass.signals = []
    ∧ sampleClass.enums = []
    ∧ ("## Properties" ∉ (as_markdown sampleClass ⟨"markdown"⟩).content
      ∧ "## Signals" ∉ (as_markdown sampleClass ⟨"markdown"⟩).content
      ∧ "## Enumerations" ∉ (as_markdown sampleClass ⟨"markdown"⟩).content
      ∧ "## Methods" ∈ (as_markdown sampleClass ⟨"markdown"⟩).content
      ∧ make_table_row ["Type", "Name"]
          ∈ (as_markdown sampleClass ⟨"markdown"⟩).content) :=
  ⟨rfl, rfl, rfl,
    as_markdown_empty_sections_omitted_methods_present sampleClass
      ⟨"markdown"⟩ rfl rfl rfl (by decide) (by decide)⟩


end Gdscript
